import Mathlib

/-!
Shallow embedding of the Taskify backend core (backend/src/routes/tasks.ts,
the file routes in the same module, and backend/src/utils/storage.ts),
together with theorems checking the claims of the specification about it.

Tasks and Files are rows of an in-memory database value; Prisma calls
(findFirst, findMany, count, create, update, delete) are modelled as the
corresponding list operations over those rows, with the exact where-clauses
the source builds.  Handlers become pure functions from a database and the
validated request data to a response and the successor database.
-/

namespace Taskify

/-- Task status enum, values from the Joi schemas and the Prisma model. -/
inductive Status where
  | PENDING
  | IN_PROGRESS
  | COMPLETED
deriving DecidableEq, Repr

/-- Task priority enum, values from the Joi schemas and the Prisma model. -/
inductive Priority where
  | LOW
  | MEDIUM
  | HIGH
deriving DecidableEq, Repr

/-- A Task row.  Ids are Nat (stand-ins for UUID strings), timestamps Int. -/
structure Task where
  id : Nat
  title : String
  description : Option String
  status : Status
  priority : Priority
  dueDate : Option Int
  createdAt : Int
  updatedAt : Int
  userId : Nat
deriving DecidableEq, Repr

/-- A File row, fields as in the Prisma model used by the file routes
(filename, originalName, mimeType, size, gcsPath, userId, taskId, createdAt). -/
structure FileRec where
  id : Nat
  filename : String
  originalName : String
  mimeType : String
  size : Nat
  gcsPath : String
  userId : Nat
  taskId : Option Nat
  createdAt : Int
deriving DecidableEq, Repr

/-- The persistence layer: the Task table and the File table. -/
structure DB where
  tasks : List Task
  files : List FileRec
deriving DecidableEq, Repr

/-- Body of an HTTP response: a JSON payload or an error object
with a message, as the handlers build with res.json. -/
inductive Outcome (α : Type) where
  | ok (v : α)
  | err (msg : String)
deriving DecidableEq, Repr

/-- An HTTP response: status code plus body. -/
structure Resp (α : Type) where
  status : Nat
  body : Outcome α
deriving DecidableEq, Repr

/-- The projection of a File used inside task responses: the select block
listing id, filename, originalName, mimeType, size, createdAt
(tasks.ts lines 110-119 and the identical blocks in get/create/update). -/
structure FileProjection where
  id : Nat
  filename : String
  originalName : String
  mimeType : String
  size : Nat
  createdAt : Int
deriving DecidableEq, Repr

/-- Apply the task-response file select block to a File row. -/
def projectFileForTask (f : FileRec) : FileProjection :=
  { id := f.id, filename := f.filename, originalName := f.originalName,
    mimeType := f.mimeType, size := f.size, createdAt := f.createdAt }

/-- The "include files" relation load for a task: the File rows whose taskId
is the id of the task, projected. -/
def taskFilesProjection (files : List FileRec) (tid : Nat) : List FileProjection :=
  (files.filter (fun f => f.taskId == some tid)).map projectFileForTask

/-- A task together with its included files, as serialized in task responses. -/
structure TaskWithFiles where
  task : Task
  files : List FileProjection
deriving DecidableEq, Repr

/-- The ownership-scoped task lookup used by get/update/delete:
prisma.task.findFirst with where id AND userId (tasks.ts lines 153-157,
229-234, 281-286).  The owner predicate is conjoined with the id predicate
inside the query itself. -/
def findFirstTask (tasks : List Task) (tid uid : Nat) : Option Task :=
  tasks.find? (fun t => t.id == tid && t.userId == uid)

/-- The ownership-scoped file lookup used by the file routes:
prisma.file.findFirst with where id AND userId. -/
def findFirstFile (files : List FileRec) (fid uid : Nat) : Option FileRec :=
  files.find? (fun f => f.id == fid && f.userId == uid)

/-- Handler of GET /tasks/:id (tasks.ts lines 149-182): ownership-scoped
findFirst, 404 on none, else the task with its files projection. -/
def getTaskHandler (db : DB) (uid tid : Nat) : Resp TaskWithFiles :=
  match findFirstTask db.tasks tid uid with
  | none => { status := 404, body := .err "Task not found" }
  | some t => { status := 200, body := .ok { task := t, files := taskFilesProjection db.files t.id } }

/-- Validated body of PUT /tasks/:id.  An outer none is an absent
(undefined) field; for dueDate, some none is an explicit JSON null. -/
structure UpdateBody where
  title : Option String
  description : Option String
  status : Option Status
  priority : Option Priority
  dueDate : Option (Option Int)
deriving DecidableEq, Repr

/-- The update data object of tasks.ts lines 244-250: each field is spread
only when not undefined; dueDate maps null to null and a date to that date.
The persistence layer also bumps updatedAt. -/
def applyUpdate (t : Task) (b : UpdateBody) (now : Int) : Task :=
  { t with
    title := match b.title with | none => t.title | some v => v
    description := match b.description with | none => t.description | some v => some v
    status := match b.status with | none => t.status | some v => v
    priority := match b.priority with | none => t.priority | some v => v
    dueDate := match b.dueDate with | none => t.dueDate | some v => v
    updatedAt := now }

/-- prisma.task.update with where id: rewrites the row with that id and
returns it; if no row has the id the call throws (modelled as none). -/
def taskUpdate (tasks : List Task) (tid : Nat) (data : Task → Task) :
    Option Task × List Task :=
  match tasks.find? (fun t => t.id == tid) with
  | none => (none, tasks)
  | some t => (some (data t), tasks.map (fun u => if u.id == tid then data u else u))

/-- Handler of PUT /tasks/:id (tasks.ts lines 223-273): ownership check via
findFirst (id AND userId), 404 on none, then update by id; a throwing
update is caught as a 500. -/
def updateTaskHandler (db : DB) (uid tid : Nat) (b : UpdateBody) (now : Int) :
    Resp TaskWithFiles × DB :=
  match findFirstTask db.tasks tid uid with
  | none => ({ status := 404, body := .err "Task not found" }, db)
  | some _ =>
    match taskUpdate db.tasks tid (fun t => applyUpdate t b now) with
    | (none, _) => ({ status := 500, body := .err "Internal server error" }, db)
    | (some t2, tasks2) =>
      ({ status := 200,
         body := .ok { task := t2, files := taskFilesProjection db.files t2.id } },
       { db with tasks := tasks2 })

/-- Modelled from the spec: the Prisma schema is not under src/; per the
spec (and the source comment at tasks.ts line 293, "files will be set to
null due to cascade") deleting a Task nullifies File.taskId on its files
rather than deleting the files.  prisma.task.delete removes the task row
and the relation default clears taskId on the attached File rows. -/
def taskDeleteCascade (db : DB) (tid : Nat) : DB :=
  { tasks := db.tasks.filter (fun t => !(t.id == tid)),
    files := db.files.map (fun f => if f.taskId == some tid then { f with taskId := none } else f) }

/-- Handler of DELETE /tasks/:id (tasks.ts lines 276-303): ownership check
via findFirst (id AND userId), 404 on none, else delete with cascade. -/
def deleteTaskHandler (db : DB) (uid tid : Nat) : Resp String × DB :=
  match findFirstTask db.tasks tid uid with
  | none => ({ status := 404, body := .err "Task not found" }, db)
  | some _ =>
    ({ status := 200, body := .ok "Task deleted successfully" }, taskDeleteCascade db tid)

/-- Substring test: the Prisma contains filter, needle is a contiguous
substring of the haystack. -/
def strContainsB (hay needle : String) : Bool :=
  decide (needle.toList <:+: hay.toList)

/-- The base filters object of tasks.ts lines 72-78: always the userId of the
requester, plus status and priority when they were supplied. -/
structure BaseFilters where
  userId : Nat
  status : Option Status
  priority : Option Priority
deriving DecidableEq, Repr

/-- The where clause of the task list query: either the base filters alone,
or AND of the base filters with the title-or-description search OR block
(tasks.ts lines 80-99). -/
inductive WhereClause where
  | base (b : BaseFilters)
  | searchAnd (b : BaseFilters) (term : String)
deriving DecidableEq, Repr

/-- JS String.prototype.trim: strip leading and trailing whitespace. -/
def trimStr (s : String) : String :=
  String.mk (((s.toList.dropWhile Char.isWhitespace).reverse.dropWhile
    Char.isWhitespace).reverse)

/-- Build the where clause as tasks.ts lines 72-99 does: the search branch
is taken when search is supplied, non-empty, and non-empty after trim, and
it uses the trimmed term. -/
def buildWhere (uid : Nat) (status : Option Status) (priority : Option Priority)
    (search : Option String) : WhereClause :=
  let b : BaseFilters := { userId := uid, status := status, priority := priority }
  match search with
  | none => .base b
  | some s => if s ≠ "" ∧ trimStr s ≠ "" then .searchAnd b (trimStr s) else .base b

/-- Row-level meaning of the base filters. -/
def matchesBase (b : BaseFilters) (t : Task) : Bool :=
  t.userId == b.userId &&
  (match b.status with | none => true | some s => t.status == s) &&
  (match b.priority with | none => true | some p => t.priority == p)

/-- Row-level meaning of the where clause; a null description never matches
a contains filter. -/
def matchesWhere : WhereClause → Task → Bool
  | .base b, t => matchesBase b t
  | .searchAnd b term, t =>
    matchesBase b t &&
    (strContainsB t.title term ||
      (match t.description with | none => false | some d => strContainsB d term))

/-- Sort keys accepted by the list query (Joi schema line 49). -/
inductive SortKey where
  | createdAt
  | updatedAt
  | dueDate
  | title
deriving DecidableEq, Repr

/-- Sort directions accepted by the list query (Joi schema line 50). -/
inductive SortDir where
  | asc
  | desc
deriving DecidableEq, Repr

/-- Order on nullable timestamps used when sorting by dueDate: null first. -/
def optIntLe : Option Int → Option Int → Bool
  | none, _ => true
  | some _, none => false
  | some x, some y => decide (x ≤ y)

/-- Ascending comparison of two tasks on a sort key. -/
def taskKeyLe (k : SortKey) (a b : Task) : Bool :=
  match k with
  | .createdAt => decide (a.createdAt ≤ b.createdAt)
  | .updatedAt => decide (a.updatedAt ≤ b.updatedAt)
  | .dueDate => optIntLe a.dueDate b.dueDate
  | .title => decide (a.title ≤ b.title)

/-- The orderBy step of the task list query (tasks.ts lines 101-103, 121). -/
def sortTasks (k : SortKey) (d : SortDir) (l : List Task) : List Task :=
  match d with
  | .asc => l.mergeSort (fun a b => taskKeyLe k a b)
  | .desc => l.mergeSort (fun a b => taskKeyLe k b a)

/-- The pagination block returned by the list endpoint. -/
structure PaginationBlock where
  page : Nat
  limit : Nat
  total : Nat
  pages : Nat
deriving DecidableEq, Repr

/-- Response of GET /tasks. -/
structure TaskListResp where
  tasks : List TaskWithFiles
  pagination : PaginationBlock
deriving DecidableEq, Repr

/-- Math.ceil(total / limit) over naturals, as in tasks.ts line 139. -/
def jsCeil (total limit : Nat) : Nat :=
  total / limit + (if total % limit == 0 then 0 else 1)

/-- Handler of GET /tasks (tasks.ts lines 55-146): build the where clause,
run findMany with orderBy, skip = (page-1)*limit and take = limit, count
over the same where clause, and return the pagination block. -/
def listTasksHandler (db : DB) (uid : Nat) (status : Option Status)
    (priority : Option Priority) (search : Option String) (page limit : Nat)
    (k : SortKey) (d : SortDir) : TaskListResp :=
  let skip := (page - 1) * limit
  let w := buildWhere uid status priority search
  let filtered := db.tasks.filter (matchesWhere w)
  let items := ((sortTasks k d filtered).drop skip).take limit
  let total := filtered.length
  { tasks := items.map (fun t => { task := t, files := taskFilesProjection db.files t.id }),
    pagination := { page := page, limit := limit, total := total, pages := jsCeil total limit } }

/-- Spec-side list predicate, phrased from the claim: owner AND (status
filter, if supplied) AND (priority filter, if supplied) AND (the trimmed
term is a substring of title OR of description). -/
def specListPredicate (uid : Nat) (status : Option Status) (priority : Option Priority)
    (term : String) (t : Task) : Prop :=
  t.userId = uid ∧
  (∀ s, status = some s → t.status = s) ∧
  (∀ p, priority = some p → t.priority = p) ∧
  (term.toList <:+: t.title.toList ∨
    ∃ dsc, t.description = some dsc ∧ term.toList <:+: dsc.toList)

/-- A multipart file as multer hands it to the handler: original name,
declared MIME type, size in bytes (content itself is irrelevant to the
claims and elided). -/
structure UploadedFile where
  originalname : String
  mimetype : String
  size : Nat
deriving DecidableEq, Repr

/-- The MIME allow-list of tasks.ts lines 368-380. -/
def allowedMimeTypes : List String :=
  ["image/jpeg", "image/png", "image/gif", "image/webp",
   "application/pdf", "application/msword",
   "application/vnd.openxmlformats-officedocument.wordprocessingml.document",
   "application/vnd.ms-excel",
   "application/vnd.openxmlformats-officedocument.spreadsheetml.sheet",
   "text/plain", "text/csv"]

/-- The multer fileSize limit of tasks.ts line 364: 10 MiB. -/
def maxFileSize : Nat := 10 * 1024 * 1024

/-- The multer fileFilter callback of tasks.ts lines 366-387. -/
def fileFilter (f : UploadedFile) : Outcome Unit :=
  if allowedMimeTypes.contains f.mimetype then .ok () else .err "File type not allowed"

/-- Result of the multer middleware: the request either reaches the route
handler with the parsed file, or is rejected before the handler runs. -/
inductive MulterOutcome where
  | rejected (reason : String)
  | accepted (f : UploadedFile)
deriving DecidableEq, Repr

/-- Modelled from the spec: the multer library itself is not under src/;
per its configuration in tasks.ts lines 361-388 and the spec ("both checks
occur before the Storage Adapter is invoked"), the size limit and the
fileFilter run while the multipart body is parsed, so a failing check
aborts the request before the handler body executes. -/
def multerSingle (f : UploadedFile) : MulterOutcome :=
  if f.size > maxFileSize then .rejected "LIMIT_FILE_SIZE"
  else
    match fileFilter f with
    | .err m => .rejected m
    | .ok _ => .accepted f

/-- An effect on the storage backend: writing or deleting an object. -/
inductive StorageOp where
  | putOp (path : String)
  | delOp (path : String)
deriving DecidableEq, Repr

/-- Whether an op is a delete. -/
def StorageOp.isDelete : StorageOp → Bool
  | .delOp _ => true
  | .putOp _ => false

/-- Node path.extname: the suffix from the last dot, or empty. -/
def extname (s : String) : String :=
  if s.toList.contains '.' then
    String.mk ('.' :: (s.toList.reverse.takeWhile (fun c => c != '.')).reverse)
  else ""

/-- Result record of the uploadFile storage util. -/
structure UploadResult where
  filename : String
  gcsPath : String
deriving DecidableEq, Repr

/-- The uploadFile storage util (storage.ts lines 37-95) in filesystem
mode: the uuid token and the write outcome are oracles.  On success the
object is written at the owner-scoped local path and that path is recorded
as the locator; a failing write is re-thrown as the generic
"Failed to upload file" error. -/
def uploadFileLocal (uuid : String) (userId : Nat) (writeOk : Bool)
    (originalName : String) : Outcome UploadResult × List StorageOp :=
  let filename := uuid ++ extname originalName
  let localPath := "uploads/" ++ toString userId ++ "/" ++ filename
  if writeOk then
    (.ok { filename := filename, gcsPath := localPath }, [.putOp localPath])
  else
    (.err "Failed to upload file", [])

/-- The file object serialized by the upload response (tasks.ts 453-464). -/
structure UploadedFileView where
  id : Nat
  filename : String
  originalName : String
  mimeType : String
  size : Nat
  createdAt : Int
  taskId : Option Nat
deriving DecidableEq, Repr

/-- Storage write plus metadata create, the body of the upload handler
after the checks (tasks.ts lines 432-464 with the catch at 465-468):
a failing create is caught and answered with a 500; no further storage
op is issued in either catch path. -/
def uploadCore (db : DB) (uid : Nat) (f : UploadedFile) (taskId? : Option Nat)
    (uuid : String) (writeOk createOk : Bool) (newId : Nat) (now : Int) :
    Resp UploadedFileView × DB × List StorageOp :=
  match uploadFileLocal uuid uid writeOk f.originalname with
  | (.err _, ops) => ({ status := 500, body := .err "Failed to upload file" }, db, ops)
  | (.ok ur, ops) =>
    if createOk then
      let row : FileRec :=
        { id := newId, filename := ur.filename, originalName := f.originalname,
          mimeType := f.mimetype, size := f.size, gcsPath := ur.gcsPath,
          userId := uid, taskId := taskId?, createdAt := now }
      ({ status := 201,
         body := .ok { id := newId, filename := ur.filename, originalName := f.originalname,
                       mimeType := f.mimetype, size := f.size, createdAt := now,
                       taskId := taskId? } },
       { db with files := db.files ++ [row] }, ops)
    else
      ({ status := 500, body := .err "Failed to upload file" }, db, ops)

/-- Handler of POST /files/upload (tasks.ts lines 404-470): missing file is
a 400; a supplied taskId must resolve under ownership or the request is a
404; then storage write and metadata create. -/
def uploadHandler (db : DB) (uid : Nat) (file? : Option UploadedFile)
    (taskId? : Option Nat) (uuid : String) (writeOk createOk : Bool)
    (newId : Nat) (now : Int) : Resp UploadedFileView × DB × List StorageOp :=
  match file? with
  | none => ({ status := 400, body := .err "No file provided" }, db, [])
  | some f =>
    match taskId? with
    | some tid =>
      match findFirstTask db.tasks tid uid with
      | none => ({ status := 404, body := .err "Task not found" }, db, [])
      | some _ => uploadCore db uid f taskId? uuid writeOk createOk newId now
    | none => uploadCore db uid f taskId? uuid writeOk createOk newId now

/-- The whole upload request: multer first (limits and fileFilter), then
the route handler.  A multer rejection never runs the handler. -/
def uploadRequest (db : DB) (uid : Nat) (f : UploadedFile) (taskId? : Option Nat)
    (uuid : String) (writeOk createOk : Bool) (newId : Nat) (now : Int) :
    Outcome (Resp UploadedFileView) × DB × List StorageOp :=
  match multerSingle f with
  | .rejected reason => (.err reason, db, [])
  | .accepted f2 =>
    match uploadHandler db uid (some f2) taskId? uuid writeOk createOk newId now with
    | (r, db2, ops) => (.ok r, db2, ops)

/-- The task select block used in file responses: id and title. -/
structure TaskRef where
  id : Nat
  title : String
deriving DecidableEq, Repr

/-- Load of the optional task relation with select id, title. -/
def taskRefOf (tasks : List Task) (tid? : Option Nat) : Option TaskRef :=
  match tid? with
  | none => none
  | some tid => (tasks.find? (fun t => t.id == tid)).map (fun t => { id := t.id, title := t.title })

/-- The projection of a File used by GET /files (tasks.ts lines 481-501):
id, filename, originalName, mimeType, size, createdAt, taskId, task ref. -/
structure FileListItem where
  id : Nat
  filename : String
  originalName : String
  mimeType : String
  size : Nat
  createdAt : Int
  taskId : Option Nat
  task : Option TaskRef
deriving DecidableEq, Repr

/-- Apply the file-list select block to a File row. -/
def projectFileForList (tasks : List Task) (f : FileRec) : FileListItem :=
  { id := f.id, filename := f.filename, originalName := f.originalName,
    mimeType := f.mimeType, size := f.size, createdAt := f.createdAt,
    taskId := f.taskId, task := taskRefOf tasks f.taskId }

/-- Handler of GET /files (tasks.ts lines 473-508): rows filtered by owner
(and by taskId when supplied), ordered by createdAt desc, projected. -/
def listFilesHandler (db : DB) (uid : Nat) (taskId? : Option Nat) :
    Resp (List FileListItem) :=
  let rows := db.files.filter (fun f =>
    f.userId == uid && (match taskId? with | none => true | some tid => f.taskId == some tid))
  let sorted := rows.mergeSort (fun a b => decide (b.createdAt ≤ a.createdAt))
  { status := 200, body := .ok (sorted.map (projectFileForList db.tasks)) }

/-- Body of the single-file metadata response: the full File row (the query
uses include, not select) plus the task ref. -/
structure FileDetail where
  file : FileRec
  task : Option TaskRef
deriving DecidableEq, Repr

/-- Handler of GET /files/:id (tasks.ts lines 511-541): ownership-scoped
findFirst with include (no select), so the whole row is serialized. -/
def getFileHandler (db : DB) (uid fid : Nat) : Resp FileDetail :=
  match findFirstFile db.files fid uid with
  | none => { status := 404, body := .err "File not found" }
  | some f => { status := 200, body := .ok { file := f, task := taskRefOf db.tasks f.taskId } }

/-- Handler of GET /files/download/:filename (tasks.ts lines 577-619), the
local serving endpoint.  The payload on success is the Content-Type, the
Content-Disposition filename and the disk path handed to sendFile. -/
def serveLocalHandler (db : DB) (fsExists : String → Bool) (localDev : Bool)
    (uid : Nat) (filename : String) : Resp (String × String × String) :=
  match db.files.find? (fun f => f.filename == filename && f.userId == uid) with
  | none => { status := 404, body := .err "File not found" }
  | some f =>
    if !localDev then
      { status := 404, body := .err "Direct file access not available in production" }
    else if !(fsExists f.gcsPath) then
      { status := 404, body := .err "File not found on filesystem" }
    else
      { status := 200, body := .ok (f.mimeType, f.originalName, f.gcsPath) }

/-- prisma.file.update with where id: rewrites the row with that id and
returns it; if no row has the id the call throws (modelled as none). -/
def fileUpdate (files : List FileRec) (fid : Nat) (data : FileRec → FileRec) :
    Option FileRec × List FileRec :=
  match files.find? (fun f => f.id == fid) with
  | none => (none, files)
  | some f => (some (data f), files.map (fun g => if g.id == fid then data g else g))

/-- Handler of PUT /files/:id/attach/:taskId (tasks.ts lines 655-713):
ownership-scoped resolution of the File, then of the Task, each answered
with a 404 on failure; then the taskId of the File row is overwritten. -/
def attachHandler (db : DB) (uid fid tid : Nat) : Resp FileDetail × DB :=
  match findFirstFile db.files fid uid with
  | none => ({ status := 404, body := .err "File not found" }, db)
  | some _ =>
    match findFirstTask db.tasks tid uid with
    | none => ({ status := 404, body := .err "Task not found" }, db)
    | some _ =>
      match fileUpdate db.files fid (fun f => { f with taskId := some tid }) with
      | (none, _) => ({ status := 500, body := .err "Internal server error" }, db)
      | (some f2, files2) =>
        ({ status := 200, body := .ok { file := f2, task := taskRefOf db.tasks f2.taskId } },
         { db with files := files2 })

/-! Sample rows used by the closed witness theorems. -/

/-- A sample task owned by user 5. -/
def tA : Task :=
  { id := 1, title := "Write report", description := some "quarterly numbers",
    status := .PENDING, priority := .HIGH, dueDate := none,
    createdAt := 0, updatedAt := 0, userId := 5 }

/-- A second sample task owned by user 5. -/
def tB : Task :=
  { id := 2, title := "Plan trip", description := none,
    status := .IN_PROGRESS, priority := .LOW, dueDate := some 100,
    createdAt := 1, updatedAt := 1, userId := 5 }

/-- A sample file owned by user 5, attached to task 1. -/
def fX : FileRec :=
  { id := 10, filename := "u1.pdf", originalName := "r.pdf",
    mimeType := "application/pdf", size := 2048, gcsPath := "uploads/5/u1.pdf",
    userId := 5, taskId := some 1, createdAt := 0 }

/-- A second sample file owned by user 5, attached to task 1. -/
def fY : FileRec :=
  { id := 11, filename := "u2.png", originalName := "pic.png",
    mimeType := "image/png", size := 4096, gcsPath := "uploads/5/u2.png",
    userId := 5, taskId := some 1, createdAt := 1 }

/-- A sample database. -/
def sampleDB : DB := { tasks := [tA, tB], files := [fX, fY] }

/-- Characterization of the ownership-scoped task lookup failing. -/
theorem findFirstTask_eq_none (tasks : List Task) (tid uid : Nat) :
    findFirstTask tasks tid uid = none ↔
      ∀ u ∈ tasks, ¬(u.id = tid ∧ u.userId = uid) := by
  simp [findFirstTask, List.find?_eq_none]

/-- With unique task ids, a lookup for the task id of another user under the
identity of the requester finds nothing at the data layer. -/
theorem findFirstTask_cross_user (db : DB) (t : Task) (a b : Nat)
    (hmem : t ∈ db.tasks) (howner : t.userId = a) (hne : b ≠ a)
    (hnodup : (db.tasks.map Task.id).Nodup) :
    findFirstTask db.tasks t.id b = none := by
  rw [findFirstTask_eq_none]
  intro u hu h
  have hut : u = t := List.inj_on_of_nodup_map hnodup hu hmem h.1
  exact hne (by rw [← h.2, hut, howner])

/-- C1: a detail-fetch, update, or delete request for a Task owned by user
a, authenticated as a different user b, returns the 404 response, equal to
the response for an id that belongs to no task at all, the database is not
changed, and already the data-layer lookup (whose predicate conjoins id
with owner) returns nothing. -/
theorem crossUserRequestsUniformNotFound
    (db : DB) (t : Task) (a b gid : Nat) (body : UpdateBody) (now : Int)
    (hmem : t ∈ db.tasks) (howner : t.userId = a) (hne : b ≠ a)
    (hnodup : (db.tasks.map Task.id).Nodup)
    (hghost : ∀ u ∈ db.tasks, u.id ≠ gid) :
    findFirstTask db.tasks t.id b = none ∧
    getTaskHandler db b t.id = { status := 404, body := .err "Task not found" } ∧
    getTaskHandler db b t.id = getTaskHandler db b gid ∧
    updateTaskHandler db b t.id body now =
      ({ status := 404, body := .err "Task not found" }, db) ∧
    updateTaskHandler db b t.id body now = updateTaskHandler db b gid body now ∧
    deleteTaskHandler db b t.id =
      ({ status := 404, body := .err "Task not found" }, db) ∧
    deleteTaskHandler db b t.id = deleteTaskHandler db b gid := by
  have key : findFirstTask db.tasks t.id b = none :=
    findFirstTask_cross_user db t a b hmem howner hne hnodup
  have keyg : findFirstTask db.tasks gid b = none := by
    rw [findFirstTask_eq_none]
    intro u hu h
    exact hghost u hu h.1
  refine ⟨key, ?_, ?_, ?_, ?_, ?_, ?_⟩ <;>
    simp only [getTaskHandler, updateTaskHandler, deleteTaskHandler, key, keyg]

/-- C1 witness: user 6 requesting task 1 of user 5 in the sample database. -/
theorem crossUserRequestsUniformNotFound_witness :
    getTaskHandler sampleDB 6 1 = { status := 404, body := .err "Task not found" } ∧
    deleteTaskHandler sampleDB 6 1 =
      ({ status := 404, body := .err "Task not found" }, sampleDB) := by
  have h := crossUserRequestsUniformNotFound sampleDB tA 5 6 99
    { title := none, description := none, status := none, priority := none, dueDate := none } 0
    (by decide) (by decide) (by decide) (by decide) (by decide)
  exact ⟨h.2.1, h.2.2.2.2.2.1⟩

/-- Row-level meaning of the search where clause, as a proposition. -/
theorem matchesWhere_search_iff (b : BaseFilters) (term : String) (t : Task) :
    matchesWhere (.searchAnd b term) t = true ↔
      (t.userId = b.userId ∧
       (∀ s, b.status = some s → t.status = s) ∧
       (∀ p, b.priority = some p → t.priority = p) ∧
       (term.toList <:+: t.title.toList ∨
         ∃ dsc, t.description = some dsc ∧ term.toList <:+: dsc.toList)) := by
  obtain ⟨buid, bst, bpr⟩ := b
  simp only [matchesWhere, matchesBase, strContainsB, Bool.and_eq_true, Bool.or_eq_true,
    beq_iff_eq, decide_eq_true_eq, and_assoc]
  cases bst <;> cases bpr <;> cases hd : t.description <;> simp [hd]

/-- The ordering step is a permutation of its input. -/
theorem sortTasks_perm (k : SortKey) (d : SortDir) (l : List Task) :
    (sortTasks k d l).Perm l := by
  cases d <;> exact List.mergeSort_perm l _

/-- C3: with a search term that is non-empty after trimming, the rows the
where clause selects are exactly the tasks of the requester passing the
status/priority filters whose title or description contains the trimmed
term, and every task the list handler returns satisfies that predicate. -/
theorem searchWhereClauseExact (db : DB) (uid : Nat) (st : Option Status)
    (pr : Option Priority) (search : String) (page limit : Nat)
    (k : SortKey) (d : SortDir) (hs : trimStr search ≠ "") :
    (∀ t : Task,
      t ∈ db.tasks.filter (matchesWhere (buildWhere uid st pr (some search))) ↔
        t ∈ db.tasks ∧ specListPredicate uid st pr (trimStr search) t) ∧
    (∀ v ∈ (listTasksHandler db uid st pr (some search) page limit k d).tasks,
      v.task ∈ db.tasks ∧ specListPredicate uid st pr (trimStr search) v.task) := by
  have hne : search ≠ "" := by
    intro h
    exact hs (by rw [h]; rfl)
  have hb : buildWhere uid st pr (some search) =
      .searchAnd { userId := uid, status := st, priority := pr } (trimStr search) := by
    simp [buildWhere, hne, hs]
  have hpt : ∀ t : Task,
      t ∈ db.tasks.filter (matchesWhere (buildWhere uid st pr (some search))) ↔
        t ∈ db.tasks ∧ specListPredicate uid st pr (trimStr search) t := by
    intro t
    rw [hb, List.mem_filter, matchesWhere_search_iff]
    exact Iff.rfl
  refine ⟨hpt, ?_⟩
  intro v hv
  simp only [listTasksHandler, List.mem_map] at hv
  obtain ⟨t, ht, rfl⟩ := hv
  have h1 : t ∈ sortTasks k d (db.tasks.filter
      (matchesWhere (buildWhere uid st pr (some search)))) :=
    List.mem_of_mem_drop (List.mem_of_mem_take ht)
  have h2 := (sortTasks_perm k d _).mem_iff.mp h1
  exact (hpt t).mp h2

/-- C3 witness: searching " report " (trims to "report") in the sample
database selects exactly the task titled "Write report". -/
theorem searchWhereClauseExact_witness :
    tA ∈ sampleDB.tasks.filter (matchesWhere (buildWhere 5 none none (some " report "))) ∧
    specListPredicate 5 none none "report" tA := by
  have h := (searchWhereClauseExact sampleDB 5 none none " report " 1 10
    .createdAt .desc (by decide)).1 tA
  have htrim : trimStr " report " = "report" := by decide
  rw [htrim] at h
  have hmem : tA ∈ sampleDB.tasks.filter
      (matchesWhere (buildWhere 5 none none (some " report "))) := by decide
  exact ⟨hmem, (h.mp hmem).2⟩

/-- The JS ceiling formula is characterized by the Galois property of
ceiling division. -/
theorem jsCeil_le_iff (a b c : Nat) (hb : 0 < b) : jsCeil a b ≤ c ↔ a ≤ b * c := by
  unfold jsCeil
  rcases Nat.eq_zero_or_pos (a % b) with h | h
  · obtain ⟨q, rfl⟩ : b ∣ a := Nat.dvd_of_mod_eq_zero h
    rw [Nat.mul_div_cancel_left q hb]
    simp only [Nat.mul_mod_right, beq_self_eq_true, if_true, Nat.add_zero]
    exact ⟨fun hqc => Nat.mul_le_mul_left b hqc,
           fun hm => Nat.le_of_mul_le_mul_left hm hb⟩
  · have hne : (a % b == 0) = false := by
      simp [Nat.pos_iff_ne_zero.mp h]
    rw [hne]
    simp only [Bool.false_eq_true, if_false]
    constructor
    · intro hc
      have h1 : a / b < c := by omega
      have h2 : a < c * b := (Nat.div_lt_iff_lt_mul hb).mp h1
      calc a ≤ c * b := Nat.le_of_lt h2
        _ = b * c := Nat.mul_comm c b
    · intro hc
      have hab : a ≠ b * c := by
        intro he
        rw [he] at h
        simp [Nat.mul_mod_right] at h
      have h2 : a < b * c := Nat.lt_of_le_of_ne hc hab
      have h2m : a < c * b := by
        rw [Nat.mul_comm c b]
        exact h2
      have h3 : a / b < c := (Nat.div_lt_iff_lt_mul hb).mpr h2m
      omega

/-- The JS ceiling formula computes ceiling division over the naturals. -/
theorem jsCeil_eq_ceilDiv (a b : Nat) (hb : 0 < b) : jsCeil a b = a ⌈/⌉ b := by
  apply Nat.le_antisymm
  · refine (jsCeil_le_iff a b _ hb).mpr ?_
    have h1 : a ≤ b • (a ⌈/⌉ b) := le_smul_ceilDiv hb
    simpa [smul_eq_mul] using h1
  · exact (ceilDiv_le_iff_le_mul hb).mpr ((jsCeil_le_iff a b _ hb).mp (Nat.le_refl _))

/-- The JS ceiling formula also matches the rational ceiling. -/
theorem jsCeil_eq_rat_ceil (a b : Nat) (hb : 0 < b) :
    jsCeil a b = ⌈(a : ℚ) / (b : ℚ)⌉₊ := by
  have hbq : (0 : ℚ) < b := by exact_mod_cast hb
  apply Nat.le_antisymm
  · refine (jsCeil_le_iff a b _ hb).mpr ?_
    have h1 : ((a : ℚ) / b) ≤ (⌈(a : ℚ) / (b : ℚ)⌉₊ : ℚ) := Nat.le_ceil _
    have h2 : (a : ℚ) ≤ (b : ℚ) * (⌈(a : ℚ) / (b : ℚ)⌉₊ : ℚ) := by
      rw [mul_comm]
      exact (div_le_iff₀ hbq).mp h1
    exact_mod_cast h2
  · rw [Nat.ceil_le, div_le_iff₀ hbq]
    have h1 : a ≤ b * jsCeil a b := (jsCeil_le_iff a b _ hb).mp (Nat.le_refl _)
    have h2 : (a : ℚ) ≤ (b : ℚ) * (jsCeil a b : ℚ) := by exact_mod_cast h1
    linarith

/-- C4: the items of the list handler are the window of the ordered filtered
rows that skips exactly (page-1)*limit records and takes limit; the
ordered rows are a permutation of the filtered rows; total counts the rows
satisfying the same where clause that produced the items; and pages is the
ceiling of total over limit (stated both as ceiling division over the
naturals and as the rational ceiling). -/
theorem listPaginationConsistent (db : DB) (uid : Nat) (st : Option Status)
    (pr : Option Priority) (search : Option String) (page limit : Nat)
    (k : SortKey) (d : SortDir) (hlimit : 0 < limit) :
    (listTasksHandler db uid st pr search page limit k d).tasks.map TaskWithFiles.task =
      ((sortTasks k d (db.tasks.filter (matchesWhere (buildWhere uid st pr search)))).drop
        ((page - 1) * limit)).take limit ∧
    (sortTasks k d (db.tasks.filter (matchesWhere (buildWhere uid st pr search)))).Perm
      (db.tasks.filter (matchesWhere (buildWhere uid st pr search))) ∧
    (listTasksHandler db uid st pr search page limit k d).pagination.page = page ∧
    (listTasksHandler db uid st pr search page limit k d).pagination.limit = limit ∧
    (listTasksHandler db uid st pr search page limit k d).pagination.total =
      (db.tasks.filter (matchesWhere (buildWhere uid st pr search))).length ∧
    (listTasksHandler db uid st pr search page limit k d).pagination.pages =
      (listTasksHandler db uid st pr search page limit k d).pagination.total ⌈/⌉ limit ∧
    (listTasksHandler db uid st pr search page limit k d).pagination.pages =
      ⌈((listTasksHandler db uid st pr search page limit k d).pagination.total : ℚ) /
        (limit : ℚ)⌉₊ := by
  refine ⟨?_, sortTasks_perm k d _, rfl, rfl, rfl, ?_, ?_⟩
  · simp only [listTasksHandler, List.map_take, List.map_drop, List.map_map]
    have hid : (TaskWithFiles.task ∘ fun t =>
        ({ task := t, files := taskFilesProjection db.files t.id } : TaskWithFiles)) =
        fun t => t := rfl
    rw [hid]
    simp
  · exact jsCeil_eq_ceilDiv _ limit hlimit
  · exact jsCeil_eq_rat_ceil _ limit hlimit

/-- C4 witness: listing the sample database with page 1, limit 10. -/
theorem listPaginationConsistent_witness :
    (listTasksHandler sampleDB 5 none none none 1 10 .createdAt .desc).pagination.total =
      (sampleDB.tasks.filter (matchesWhere (buildWhere 5 none none none))).length ∧
    (listTasksHandler sampleDB 5 none none none 1 10 .createdAt .desc).pagination.pages =
      (listTasksHandler sampleDB 5 none none none 1 10 .createdAt .desc).pagination.total
        ⌈/⌉ 10 := by
  have h := listPaginationConsistent sampleDB 5 none none none 1 10 .createdAt .desc
    (by decide)
  exact ⟨h.2.2.2.2.1, h.2.2.2.2.2.1⟩

/-- C5: an owner deleting a Task succeeds with a 200; the successor File
table is the old one with taskId nullified exactly on the files that were
attached to the task; every formerly attached file persists with all other
fields intact and taskId null; and fetching any file through the
single-file endpoint still succeeds afterwards. -/
theorem deleteTaskDetachesFiles (db : DB) (t : Task) (a : Nat)
    (hmem : t ∈ db.tasks) (howner : t.userId = a) :
    (deleteTaskHandler db a t.id).1 =
      { status := 200, body := .ok "Task deleted successfully" } ∧
    (deleteTaskHandler db a t.id).2.files =
      db.files.map (fun f => if f.taskId == some t.id then { f with taskId := none } else f) ∧
    (∀ f ∈ db.files, f.taskId = some t.id →
      ∃ g ∈ (deleteTaskHandler db a t.id).2.files,
        g.id = f.id ∧ g.userId = f.userId ∧ g.filename = f.filename ∧
        g.originalName = f.originalName ∧ g.mimeType = f.mimeType ∧
        g.size = f.size ∧ g.gcsPath = f.gcsPath ∧ g.createdAt = f.createdAt ∧
        g.taskId = none) ∧
    (∀ f ∈ db.files,
      (getFileHandler (deleteTaskHandler db a t.id).2 f.userId f.id).status = 200) := by
  obtain ⟨t0, ht0⟩ : ∃ t0, findFirstTask db.tasks t.id a = some t0 := by
    have h1 : (db.tasks.find? (fun u => u.id == t.id && u.userId == a)).isSome :=
      List.find?_isSome.mpr ⟨t, hmem, by simp [howner]⟩
    exact Option.isSome_iff_exists.mp h1
  have hout : deleteTaskHandler db a t.id =
      ({ status := 200, body := .ok "Task deleted successfully" },
       taskDeleteCascade db t.id) := by
    simp [deleteTaskHandler, ht0]
  refine ⟨by rw [hout], by rw [hout]; rfl, ?_, ?_⟩
  · intro f hf htid
    refine ⟨{ f with taskId := none }, ?_, rfl, rfl, rfl, rfl, rfl, rfl, rfl, rfl, rfl⟩
    rw [hout]
    refine List.mem_map.mpr ⟨f, hf, ?_⟩
    simp [htid]
  · intro f hf
    rw [hout]
    have hgm : (if f.taskId == some t.id then { f with taskId := none } else f) ∈
        (taskDeleteCascade db t.id).files :=
      List.mem_map.mpr ⟨f, hf, rfl⟩
    have hsome : (findFirstFile (taskDeleteCascade db t.id).files f.id f.userId).isSome := by
      refine List.find?_isSome.mpr
        ⟨if f.taskId == some t.id then { f with taskId := none } else f, hgm, ?_⟩
      cases h : (f.taskId == some t.id) <;> simp [h]
    obtain ⟨g0, hg0⟩ := Option.isSome_iff_exists.mp hsome
    simp [getFileHandler, hg0]

/-- C5 witness: deleting task 1 (owner 5) in the sample database; file 10
is still fetchable afterwards. -/
theorem deleteTaskDetachesFiles_witness :
    (deleteTaskHandler sampleDB 5 1).1 =
      { status := 200, body := .ok "Task deleted successfully" } ∧
    (getFileHandler (deleteTaskHandler sampleDB 5 1).2 5 10).status = 200 := by
  have h := deleteTaskDetachesFiles sampleDB tA 5 (by decide) (by decide)
  exact ⟨h.1, h.2.2.2 fX (by decide)⟩

/-- With unique ids, the ownership-scoped lookup of a present task finds
exactly that task. -/
theorem findFirstTask_eq_self (db : DB) (t : Task) (a : Nat)
    (hmem : t ∈ db.tasks) (howner : t.userId = a)
    (hnodup : (db.tasks.map Task.id).Nodup) :
    findFirstTask db.tasks t.id a = some t := by
  have h1 : (db.tasks.find? (fun u => u.id == t.id && u.userId == a)).isSome :=
    List.find?_isSome.mpr ⟨t, hmem, by simp [howner]⟩
  obtain ⟨u, hu⟩ := Option.isSome_iff_exists.mp h1
  have hum : u ∈ db.tasks := List.mem_of_find?_eq_some hu
  have hup := List.find?_some hu
  have huid : u.id = t.id := by
    simp only [Bool.and_eq_true, beq_iff_eq] at hup
    exact hup.1
  have hut : u = t := List.inj_on_of_nodup_map hnodup hum hmem huid
  rw [findFirstTask, hu, hut]

/-- With unique ids, the update-by-id of a present task rewrites exactly
that task. -/
theorem taskUpdate_of_mem (db : DB) (t : Task) (data : Task → Task)
    (hmem : t ∈ db.tasks) (hnodup : (db.tasks.map Task.id).Nodup) :
    taskUpdate db.tasks t.id data =
      (some (data t), db.tasks.map (fun u => if u.id == t.id then data u else u)) := by
  have h1 : (db.tasks.find? (fun u => u.id == t.id)).isSome :=
    List.find?_isSome.mpr ⟨t, hmem, by simp⟩
  obtain ⟨u, hu⟩ := Option.isSome_iff_exists.mp h1
  have hum : u ∈ db.tasks := List.mem_of_find?_eq_some hu
  have hup := List.find?_some hu
  have huid : u.id = t.id := by simpa using hup
  have hut : u = t := List.inj_on_of_nodup_map hnodup hum hmem huid
  rw [taskUpdate, hu, hut]

/-- C6: updating an owned task answers 200 with the field-by-field merged
task; fields absent from the body keep their prior value, an explicit null
dueDate clears it, a supplied dueDate replaces it; id, createdAt and
ownerId are unchanged; the File table (and so every file association) is
untouched; and every other task row is untouched. -/
theorem updateFrameCondition (db : DB) (t : Task) (a : Nat) (b : UpdateBody)
    (now : Int) (hmem : t ∈ db.tasks) (howner : t.userId = a)
    (hnodup : (db.tasks.map Task.id).Nodup) :
    (updateTaskHandler db a t.id b now).1 =
      { status := 200,
        body := .ok { task := applyUpdate t b now,
                      files := taskFilesProjection db.files (applyUpdate t b now).id } } ∧
    (updateTaskHandler db a t.id b now).2.files = db.files ∧
    (updateTaskHandler db a t.id b now).2.tasks =
      db.tasks.map (fun u => if u.id == t.id then applyUpdate u b now else u) ∧
    (∀ u ∈ db.tasks, u.id ≠ t.id → u ∈ (updateTaskHandler db a t.id b now).2.tasks) ∧
    (applyUpdate t b now).id = t.id ∧
    (applyUpdate t b now).createdAt = t.createdAt ∧
    (applyUpdate t b now).userId = t.userId ∧
    (b.title = none → (applyUpdate t b now).title = t.title) ∧
    (b.description = none → (applyUpdate t b now).description = t.description) ∧
    (b.status = none → (applyUpdate t b now).status = t.status) ∧
    (b.priority = none → (applyUpdate t b now).priority = t.priority) ∧
    (b.dueDate = none → (applyUpdate t b now).dueDate = t.dueDate) ∧
    (b.dueDate = some none → (applyUpdate t b now).dueDate = none) ∧
    (∀ d0, b.dueDate = some (some d0) → (applyUpdate t b now).dueDate = some d0) := by
  have hfirst := findFirstTask_eq_self db t a hmem howner hnodup
  have hupd := taskUpdate_of_mem db t (fun u => applyUpdate u b now) hmem hnodup
  have hout : updateTaskHandler db a t.id b now =
      ({ status := 200,
         body := .ok { task := applyUpdate t b now,
                       files := taskFilesProjection db.files (applyUpdate t b now).id } },
       { db with tasks := db.tasks.map (fun u => if u.id == t.id then applyUpdate u b now else u) }) := by
    rw [updateTaskHandler, hfirst]
    rw [hupd]
  refine ⟨by rw [hout], by rw [hout], by rw [hout], ?_, rfl, rfl, rfl,
    ?_, ?_, ?_, ?_, ?_, ?_, ?_⟩
  · intro u hu hne
    rw [hout]
    refine List.mem_map.mpr ⟨u, hu, ?_⟩
    simp [hne]
  · intro h
    simp [applyUpdate, h]
  · intro h
    simp [applyUpdate, h]
  · intro h
    simp [applyUpdate, h]
  · intro h
    simp [applyUpdate, h]
  · intro h
    simp [applyUpdate, h]
  · intro h
    simp [applyUpdate, h]
  · intro d0 h
    simp [applyUpdate, h]

/-- C6 witness: updating task 1 with a body that only sets status keeps
title, priority, dueDate and the file table unchanged. -/
theorem updateFrameCondition_witness :
    (updateTaskHandler sampleDB 5 1
      { title := none, description := none, status := some .COMPLETED,
        priority := none, dueDate := none } 7).2.files = sampleDB.files ∧
    (applyUpdate tA
      { title := none, description := none, status := some .COMPLETED,
        priority := none, dueDate := none } 7).title = tA.title := by
  have h := updateFrameCondition sampleDB tA 5
    { title := none, description := none, status := some .COMPLETED,
      priority := none, dueDate := none } 7 (by decide) (by decide) (by decide)
  exact ⟨h.2.1, h.2.2.2.2.2.2.2.1 rfl⟩

/-- With unique file ids, the ownership-scoped lookup of a present file
finds exactly that file. -/
theorem findFirstFile_eq_self (db : DB) (f : FileRec) (a : Nat)
    (hmem : f ∈ db.files) (howner : f.userId = a)
    (hnodup : (db.files.map FileRec.id).Nodup) :
    findFirstFile db.files f.id a = some f := by
  have h1 : (db.files.find? (fun g => g.id == f.id && g.userId == a)).isSome :=
    List.find?_isSome.mpr ⟨f, hmem, by simp [howner]⟩
  obtain ⟨g, hg⟩ := Option.isSome_iff_exists.mp h1
  have hgm : g ∈ db.files := List.mem_of_find?_eq_some hg
  have hgp := List.find?_some hg
  have hgid : g.id = f.id := by
    simp only [Bool.and_eq_true, beq_iff_eq] at hgp
    exact hgp.1
  have hgf : g = f := List.inj_on_of_nodup_map hnodup hgm hmem hgid
  rw [findFirstFile, hg, hgf]

/-- Successful attach of an owned file to an owned task: 200, tasks
untouched, and the file table rewritten at exactly the row of the file. -/
theorem attachHandler_success (db : DB) (f : FileRec) (t : Task) (a : Nat)
    (hf : f ∈ db.files) (hfo : f.userId = a)
    (ht : t ∈ db.tasks) (hto : t.userId = a)
    (hnodupf : (db.files.map FileRec.id).Nodup) :
    (attachHandler db a f.id t.id).1.status = 200 ∧
    (attachHandler db a f.id t.id).2.tasks = db.tasks ∧
    (attachHandler db a f.id t.id).2.files =
      db.files.map (fun g => if g.id == f.id then { g with taskId := some t.id } else g) := by
  have hff := findFirstFile_eq_self db f a hf hfo hnodupf
  obtain ⟨t0, ht0⟩ : ∃ t0, findFirstTask db.tasks t.id a = some t0 := by
    have h1 : (db.tasks.find? (fun u => u.id == t.id && u.userId == a)).isSome :=
      List.find?_isSome.mpr ⟨t, ht, by simp [hto]⟩
    exact Option.isSome_iff_exists.mp h1
  have hupd : fileUpdate db.files f.id (fun g => { g with taskId := some t.id }) =
      (some { f with taskId := some t.id },
       db.files.map (fun g => if g.id == f.id then { g with taskId := some t.id } else g)) := by
    have h1 : (db.files.find? (fun g => g.id == f.id)).isSome :=
      List.find?_isSome.mpr ⟨f, hf, by simp⟩
    obtain ⟨g, hg⟩ := Option.isSome_iff_exists.mp h1
    have hgm : g ∈ db.files := List.mem_of_find?_eq_some hg
    have hgid : g.id = f.id := by simpa using List.find?_some hg
    have hgf : g = f := List.inj_on_of_nodup_map hnodupf hgm hf hgid
    rw [fileUpdate, hg, hgf]
  rw [attachHandler, hff, ht0, hupd]
  exact ⟨rfl, rfl, rfl⟩

/-- C7: attach answers 404 and leaves the database unchanged whenever the
ownership-scoped resolution of the File or of the Task fails; a successful
attach overwrites the association of the file without a prior detach, so two
successive attaches to owned tasks leave the file table rewritten to the
second task at exactly the row of the file: the file is associated with the
second task only, every row carrying the id of the file points at the second
task, and all other rows are exactly as before. -/
theorem attachOverwritesAssociation (db : DB) (f : FileRec) (t1 t2 : Task) (a : Nat)
    (hf : f ∈ db.files) (hfo : f.userId = a)
    (ht1 : t1 ∈ db.tasks) (ht1o : t1.userId = a)
    (ht2 : t2 ∈ db.tasks) (ht2o : t2.userId = a)
    (hnodupf : (db.files.map FileRec.id).Nodup) :
    (∀ (db0 : DB) (uid fid tid : Nat), findFirstFile db0.files fid uid = none →
      (attachHandler db0 uid fid tid).1.status = 404 ∧
      (attachHandler db0 uid fid tid).2 = db0) ∧
    (∀ (db0 : DB) (uid fid tid : Nat), findFirstTask db0.tasks tid uid = none →
      (attachHandler db0 uid fid tid).1.status = 404 ∧
      (attachHandler db0 uid fid tid).2 = db0) ∧
    (attachHandler db a f.id t1.id).1.status = 200 ∧
    (attachHandler (attachHandler db a f.id t1.id).2 a f.id t2.id).1.status = 200 ∧
    (attachHandler (attachHandler db a f.id t1.id).2 a f.id t2.id).2.files =
      db.files.map (fun g => if g.id == f.id then { g with taskId := some t2.id } else g) ∧
    { f with taskId := some t2.id } ∈
      (attachHandler (attachHandler db a f.id t1.id).2 a f.id t2.id).2.files ∧
    (∀ g ∈ (attachHandler (attachHandler db a f.id t1.id).2 a f.id t2.id).2.files,
      g.id = f.id → g.taskId = some t2.id) ∧
    (∀ g ∈ db.files, g.id ≠ f.id →
      g ∈ (attachHandler (attachHandler db a f.id t1.id).2 a f.id t2.id).2.files) := by
  have hfail1 : ∀ (db0 : DB) (uid fid tid : Nat), findFirstFile db0.files fid uid = none →
      (attachHandler db0 uid fid tid).1.status = 404 ∧
      (attachHandler db0 uid fid tid).2 = db0 := by
    intro db0 uid fid tid h
    rw [attachHandler, h]
    exact ⟨rfl, rfl⟩
  have hfail2 : ∀ (db0 : DB) (uid fid tid : Nat), findFirstTask db0.tasks tid uid = none →
      (attachHandler db0 uid fid tid).1.status = 404 ∧
      (attachHandler db0 uid fid tid).2 = db0 := by
    intro db0 uid fid tid h
    rw [attachHandler]
    cases hff : findFirstFile db0.files fid uid with
    | none => exact ⟨rfl, rfl⟩
    | some g =>
      rw [h]
      exact ⟨rfl, rfl⟩
  have h1 := attachHandler_success db f t1 a hf hfo ht1 ht1o hnodupf
  set db1 := (attachHandler db a f.id t1.id).2 with hdb1
  set f1 : FileRec := { f with taskId := some t1.id } with hf1
  have hf1m : f1 ∈ db1.files := by
    rw [h1.2.2]
    refine List.mem_map.mpr ⟨f, hf, ?_⟩
    simp [hf1]
  have hids : db1.files.map FileRec.id = db.files.map FileRec.id := by
    rw [h1.2.2, List.map_map]
    refine List.map_congr_left ?_
    intro g _
    by_cases hgid : g.id = f.id
    · simp [hgid]
    · simp [hgid]
  have hnodupf1 : (db1.files.map FileRec.id).Nodup := by
    rw [hids]
    exact hnodupf
  have ht2m : t2 ∈ db1.tasks := by
    rw [h1.2.1]
    exact ht2
  have h2 := attachHandler_success db1 f1 t2 a hf1m (by simp [hf1, hfo]) ht2m ht2o hnodupf1
  have hfiles : (attachHandler db1 a f1.id t2.id).2.files =
      db.files.map (fun g => if g.id == f.id then { g with taskId := some t2.id } else g) := by
    rw [h2.2.2, h1.2.2, List.map_map]
    refine List.map_congr_left ?_
    intro g _
    by_cases hgid : g.id = f.id
    · simp [Function.comp, hf1, hgid]
    · simp [Function.comp, hf1, hgid]
  have hfid : f1.id = f.id := rfl
  rw [hfid] at h2 hfiles
  refine ⟨hfail1, hfail2, h1.1, h2.1, hfiles, ?_, ?_, ?_⟩
  · rw [hfiles]
    refine List.mem_map.mpr ⟨f, hf, ?_⟩
    simp
  · intro g hg hgid
    rw [hfiles] at hg
    obtain ⟨g0, hg0m, hg0⟩ := List.mem_map.mp hg
    by_cases h0 : g0.id = f.id
    · rw [← hg0]
      simp [h0]
    · rw [← hg0] at hgid
      simp [h0] at hgid
  · intro g hg hgid
    rw [hfiles]
    refine List.mem_map.mpr ⟨g, hg, ?_⟩
    simp [hgid]

/-- C7 witness: attaching file 10 to task 1 and then to task 2 in the
sample database leaves row 10 pointing at task 2. -/
theorem attachOverwritesAssociation_witness :
    (attachHandler (attachHandler sampleDB 5 10 1).2 5 10 2).1.status = 200 ∧
    { fX with taskId := some 2 } ∈
      (attachHandler (attachHandler sampleDB 5 10 1).2 5 10 2).2.files := by
  have h := attachOverwritesAssociation sampleDB fX tA tB 5
    (by decide) (by decide) (by decide) (by decide) (by decide) (by decide) (by decide)
  exact ⟨h.2.2.2.1, h.2.2.2.2.2.1⟩

/-- C2 counterexample: a concrete upload where the storage write succeeds
(the put of the object is issued) and the metadata create then fails; the
handler answers a 500, the File table is unchanged, and the op trace
contains no delete at all — the claimed compensating delete of the
just-written object does not happen, so the object stays orphaned. -/
theorem uploadNoCompensatingDelete_counterexample :
    uploadRequest sampleDB 5
        { originalname := "r.pdf", mimetype := "application/pdf", size := 2048 }
        none "u9" true false 99 3 =
      (.ok { status := 500, body := .err "Failed to upload file" }, sampleDB,
        [StorageOp.putOp "uploads/5/u9.pdf"]) ∧
    (∀ p, StorageOp.delOp p ∉
      (uploadRequest sampleDB 5
        { originalname := "r.pdf", mimetype := "application/pdf", size := 2048 }
        none "u9" true false 99 3).2.2) := by
  have hout : uploadRequest sampleDB 5
      { originalname := "r.pdf", mimetype := "application/pdf", size := 2048 }
      none "u9" true false 99 3 =
      (.ok { status := 500, body := .err "Failed to upload file" }, sampleDB,
        [StorageOp.putOp "uploads/5/u9.pdf"]) := by decide
  refine ⟨hout, ?_⟩
  intro p h
  rw [hout] at h
  simp at h

/-- C2 amended: when the storage write succeeds and the metadata create
fails, the upload request answers the generic 500 error, leaves the File
table unchanged, and issues exactly the one put and no compensating
delete — the written object remains in storage, orphaned. -/
theorem uploadMetadataFailureLeavesOrphan (db : DB) (uid : Nat) (f : UploadedFile)
    (taskId? : Option Nat) (uuid : String) (newId : Nat) (now : Int)
    (hsize : f.size ≤ maxFileSize) (hmime : f.mimetype ∈ allowedMimeTypes)
    (htask : ∀ tid, taskId? = some tid → (findFirstTask db.tasks tid uid).isSome) :
    uploadRequest db uid f taskId? uuid true false newId now =
      (.ok { status := 500, body := .err "Failed to upload file" }, db,
        [StorageOp.putOp ("uploads/" ++ toString uid ++ "/" ++ (uuid ++ extname f.originalname))]) ∧
    (∀ q, StorageOp.delOp q ∉
      (uploadRequest db uid f taskId? uuid true false newId now).2.2) := by
  have hm : multerSingle f = .accepted f := by
    have hns : ¬ f.size > maxFileSize := Nat.not_lt.mpr hsize
    simp [multerSingle, fileFilter, hns, hmime]
  have hcore : ∀ tq : Option Nat, uploadCore db uid f tq uuid true false newId now =
      ({ status := 500, body := .err "Failed to upload file" }, db,
        [StorageOp.putOp ("uploads/" ++ toString uid ++ "/" ++
          (uuid ++ extname f.originalname))]) := by
    intro tq
    simp [uploadCore, uploadFileLocal]
  have hout : uploadRequest db uid f taskId? uuid true false newId now =
      (.ok { status := 500, body := .err "Failed to upload file" }, db,
        [StorageOp.putOp ("uploads/" ++ toString uid ++ "/" ++
          (uuid ++ extname f.originalname))]) := by
    cases htid : taskId? with
    | none =>
      simp [uploadRequest, hm, uploadHandler, hcore none]
    | some tid =>
      obtain ⟨t0, ht0⟩ := Option.isSome_iff_exists.mp (htask tid htid)
      simp [uploadRequest, hm, uploadHandler, ht0, hcore (some tid)]
  refine ⟨hout, ?_⟩
  intro q h
  rw [hout] at h
  simp at h

/-- C2 amended witness: the concrete failing upload of the counterexample,
reached through the amended theorem. -/
theorem uploadMetadataFailureLeavesOrphan_witness :
    uploadRequest sampleDB 5
        { originalname := "r.pdf", mimetype := "application/pdf", size := 2048 }
        none "u9" true false 99 3 =
      (.ok { status := 500, body := .err "Failed to upload file" }, sampleDB,
        [StorageOp.putOp "uploads/5/u9.pdf"]) :=
  (uploadMetadataFailureLeavesOrphan sampleDB 5
    { originalname := "r.pdf", mimetype := "application/pdf", size := 2048 }
    none "u9" 99 3 (by decide) (by decide) (by intro tid h; cases h)).1

/-- C8: an upload whose payload exceeds 10 MiB or whose MIME type is not
on the allow-list is rejected before the storage adapter runs: the op
trace is empty (adapter call count zero), the database — so in particular
the File table — is unchanged, and the response is an error. -/
theorem uploadRejectedBeforeAdapter (db : DB) (uid : Nat) (f : UploadedFile)
    (taskId? : Option Nat) (uuid : String) (writeOk createOk : Bool)
    (newId : Nat) (now : Int)
    (h : f.size > maxFileSize ∨ f.mimetype ∉ allowedMimeTypes) :
    (uploadRequest db uid f taskId? uuid writeOk createOk newId now).2.2 = [] ∧
    (uploadRequest db uid f taskId? uuid writeOk createOk newId now).2.1 = db ∧
    ∃ m, (uploadRequest db uid f taskId? uuid writeOk createOk newId now).1 =
      .err m := by
  obtain ⟨m, hm⟩ : ∃ m, multerSingle f = .rejected m := by
    by_cases hs : f.size > maxFileSize
    · exact ⟨"LIMIT_FILE_SIZE", by simp [multerSingle, hs]⟩
    · rcases h with h | h
      · exact absurd h hs
      · exact ⟨"File type not allowed", by simp [multerSingle, fileFilter, hs, h]⟩
  refine ⟨?_, ?_, m, ?_⟩ <;> simp [uploadRequest, hm]

/-- C8 witness: a 1-byte upload of a disallowed MIME type is rejected with
an empty op trace. -/
theorem uploadRejectedBeforeAdapter_witness :
    (uploadRequest sampleDB 5
      { originalname := "x.bin", mimetype := "application/octet-stream", size := 1 }
      none "u9" true true 99 3).2.2 = [] ∧
    (uploadRequest sampleDB 5
      { originalname := "x.bin", mimetype := "application/octet-stream", size := 1 }
      none "u9" true true 99 3).2.1 = sampleDB := by
  have h := uploadRejectedBeforeAdapter sampleDB 5
    { originalname := "x.bin", mimetype := "application/octet-stream", size := 1 }
    none "u9" true true 99 3 (Or.inr (by decide))
  exact ⟨h.1, h.2.1⟩

/-- C9: in filesystem mode the local serving endpoint hands out file
content only when a File record with the requested filename AND the
requester as owner exists (and what it serves is the stored
path, with its metadata); when no such record exists it answers the
uniform 404 and serves nothing. -/
theorem serveLocalOwnershipCheck (db : DB) (fsExists : String → Bool)
    (uid : Nat) (filename : String) :
    (∀ data, serveLocalHandler db fsExists true uid filename =
        { status := 200, body := .ok data } →
      ∃ f ∈ db.files, f.filename = filename ∧ f.userId = uid ∧
        data = (f.mimeType, f.originalName, f.gcsPath)) ∧
    (db.files.find? (fun f => f.filename == filename && f.userId == uid) = none →
      serveLocalHandler db fsExists true uid filename =
        { status := 404, body := .err "File not found" }) := by
  constructor
  · intro data hdata
    cases hfind : db.files.find? (fun f => f.filename == filename && f.userId == uid) with
    | none =>
      rw [serveLocalHandler, hfind] at hdata
      simp at hdata
    | some f =>
      have hfm : f ∈ db.files := List.mem_of_find?_eq_some hfind
      have hfp := List.find?_some hfind
      simp only [Bool.and_eq_true, beq_iff_eq] at hfp
      rw [serveLocalHandler, hfind] at hdata
      by_cases hex : fsExists f.gcsPath = true
      · simp only [hex] at hdata
        simp only [Bool.not_true, Bool.false_eq_true, if_false, Resp.mk.injEq,
          Outcome.ok.injEq] at hdata
        exact ⟨f, hfm, hfp.1, hfp.2, hdata.2.symm⟩
      · have hex2 : fsExists f.gcsPath = false := by
          cases hfe : fsExists f.gcsPath
          · rfl
          · exact absurd hfe hex
        simp [hex2] at hdata
  · intro hnone
    rw [serveLocalHandler, hnone]

/-- C9 witness: requesting filename u1.pdf as its owner, user 5, with the
object present on disk, serves the stored path of file 10. -/
theorem serveLocalOwnershipCheck_witness :
    ∃ f ∈ sampleDB.files, f.filename = "u1.pdf" ∧ f.userId = 5 ∧
      ("application/pdf", "r.pdf", "uploads/5/u1.pdf") =
        (f.mimeType, f.originalName, f.gcsPath) :=
  (serveLocalOwnershipCheck sampleDB (fun _ => true) 5 "u1.pdf").1
    ("application/pdf", "r.pdf", "uploads/5/u1.pdf") (by decide)

/-- C10: the single-file metadata endpoint returns the complete stored
File row — the file field of its body is the row itself, locator included —
while the projections used by the task-list and file-list endpoints keep
only the documented fields and are insensitive to the locator: changing a
gcsPath of a row never changes its projection, and the file-list endpoint
returns only projected items. -/
theorem fileDetailExposesLocatorProjectionsOmit (db : DB) (uid fid : Nat)
    (f : FileRec) (hfind : findFirstFile db.files fid uid = some f) :
    getFileHandler db uid fid =
      { status := 200,
        body := .ok { file := f, task := taskRefOf db.tasks f.taskId } } ∧
    (∀ d, getFileHandler db uid fid = { status := 200, body := .ok d } →
      d.file.gcsPath = f.gcsPath) ∧
    (∀ (g : FileRec) (p : String),
      projectFileForTask { g with gcsPath := p } = projectFileForTask g) ∧
    (∀ (g : FileRec) (p : String) (tasks : List Task),
      projectFileForList tasks { g with gcsPath := p } = projectFileForList tasks g) ∧
    (∀ (tid? : Option Nat) (l : List FileListItem),
      listFilesHandler db uid tid? = { status := 200, body := .ok l } →
      ∀ item ∈ l, ∃ g ∈ db.files, item = projectFileForList db.tasks g) := by
  have hget : getFileHandler db uid fid =
      { status := 200,
        body := .ok { file := f, task := taskRefOf db.tasks f.taskId } } := by
    rw [getFileHandler, hfind]
  refine ⟨hget, ?_, ?_, ?_, ?_⟩
  · intro d hd
    rw [hget] at hd
    have := congrArg Resp.body hd
    simp only [Outcome.ok.injEq] at this
    rw [← this]
  · intro g p
    rfl
  · intro g p tasks
    rfl
  · intro tid? l hl item hitem
    have hbody := congrArg Resp.body hl
    simp only [listFilesHandler, Outcome.ok.injEq] at hbody
    rw [← hbody] at hitem
    obtain ⟨g, hgm, hgp⟩ := List.mem_map.mp hitem
    have hgm2 : g ∈ db.files := by
      have h1 := (List.mergeSort_perm _ _).mem_iff.mp hgm
      exact List.mem_of_mem_filter h1
    exact ⟨g, hgm2, hgp.symm⟩

/-- C10 witness: fetching file 10 as user 5 exposes its stored locator. -/
theorem fileDetailExposesLocatorProjectionsOmit_witness :
    getFileHandler sampleDB 5 10 =
      { status := 200,
        body := .ok { file := fX, task := taskRefOf sampleDB.tasks fX.taskId } } ∧
    fX.gcsPath = "uploads/5/u1.pdf" := by
  have h := fileDetailExposesLocatorProjectionsOmit sampleDB 5 10 fX (by decide)
  exact ⟨h.1, by decide⟩

end Taskify
